import Mathlib

/-!
Shallow embedding of `src/xrainbow.c` (XRainbow 1.0.1).

Modelling conventions:
* C `float`/`double` values are modelled as exact rationals (`ℚ`); the
  program's arithmetic (`+`, `-`, `fmod`, comparisons) is translated to
  exact rational arithmetic.
* The C cast `(long)t` truncates toward zero; `fmod(t, 1.0)` equals
  `t - (long)t` for finite `t`; C `%` on nonnegative operands agrees with
  every integer-remainder convention.  The definitions below spell these
  out explicitly.
* The 3-element array `float palette[3]` is modelled as a function
  `ℤ → ℚ`, and the compound assignment `palette[i] += x` as a pointwise
  update (`addAt`).  For the time values the program actually passes
  (nonnegative), all indices lie in `{0, 1, 2}`.
* I/O effects (gamma requests sent to the X server, closing the display)
  are modelled as events; argument parsing is a pure function over the
  argv list with `atof` as an oracle parameter, since `atof` is a libc
  collaborator outside this repository.
-/

/-- Triple of channel values, one per colour channel, as passed to
`change_gamma(r, g, b)` and on to `XF86VidModeGamma` (src/xrainbow.c:53). -/
structure ColorTriple where
  r : ℚ
  g : ℚ
  b : ℚ
deriving DecidableEq, Repr

/-- The C cast `(long)t` (src/xrainbow.c:122-123): truncation toward zero. -/
def ctrunc (t : ℚ) : ℤ := if 0 ≤ t then ⌊t⌋ else -⌊-t⌋

/-- C `fmod(t, 1.0)` (src/xrainbow.c:122-123): `t - trunc(t)`, the
fractional part with the sign of `t`. -/
def cfmod (t : ℚ) : ℚ := t - ctrunc t

/-- C `n % 3` on `long` (src/xrainbow.c:122-123): truncated remainder,
with the sign of the dividend. -/
def cmod3 (n : ℤ) : ℤ := if 0 ≤ n then n % 3 else -((-n) % 3)

/-- The array update `palette[i] += x`, with `palette` modelled as a
function out of `ℤ`. -/
def addAt (p : ℤ → ℚ) (i : ℤ) (x : ℚ) : ℤ → ℚ :=
  fun k => if k = i then p k + x else p k

/-- The colour function `call_rainbow(t, c)` (src/xrainbow.c:119-125) up
to the point where it hands the palette to `change_gamma`:

    float palette[3] = {c, c, c};
    palette[((long)t) % 3] += 1.0f - fmod(t, 1.0);
    palette[((long)t + 1) % 3] += fmod(t, 1.0);

The returned triple is `(palette[0], palette[1], palette[2])`. -/
def call_rainbow (t : ℚ) (c : ℚ) : ColorTriple :=
  let palette : ℤ → ℚ := fun _ => c
  let p1 := addAt palette (cmod3 (ctrunc t)) (1 - cfmod t)
  let p2 := addAt p1 (cmod3 (ctrunc t + 1)) (cfmod t)
  ⟨p2 0, p2 1, p2 2⟩

/-- The three `assert` range checks at the top of `change_gamma`
(src/xrainbow.c:55-57): every channel must lie within `[0.1, 10.0]`. -/
def change_gamma_assert (tr : ColorTriple) : Prop :=
  (1/10 ≤ tr.r ∧ tr.r ≤ 10) ∧ (1/10 ≤ tr.g ∧ tr.g ≤ 10) ∧ (1/10 ≤ tr.b ∧ tr.b ≤ 10)

instance (tr : ColorTriple) : Decidable (change_gamma_assert tr) := by
  unfold change_gamma_assert; infer_instance

theorem ctrunc_eq_floor (t : ℚ) (ht : 0 ≤ t) : ctrunc t = ⌊t⌋ := if_pos ht

theorem cfmod_eq_fract (t : ℚ) (ht : 0 ≤ t) : cfmod t = Int.fract t := by
  rw [cfmod, ctrunc_eq_floor t ht, Int.fract]

theorem call_rainbow_cases (t c : ℚ) (ht : 0 ≤ t) :
    (⌊t⌋ % 3 = 0 ∧ call_rainbow t c = ⟨c + (1 - Int.fract t), c + Int.fract t, c⟩) ∨
    (⌊t⌋ % 3 = 1 ∧ call_rainbow t c = ⟨c, c + (1 - Int.fract t), c + Int.fract t⟩) ∨
    (⌊t⌋ % 3 = 2 ∧ call_rainbow t c = ⟨c + Int.fract t, c, c + (1 - Int.fract t)⟩) := by
  have hfl : (0 : ℤ) ≤ ⌊t⌋ := Int.floor_nonneg.mpr ht
  have hfl1 : (0 : ℤ) ≤ ⌊t⌋ + 1 := by omega
  have h3 : ⌊t⌋ % 3 = 0 ∨ ⌊t⌋ % 3 = 1 ∨ ⌊t⌋ % 3 = 2 := by omega
  rcases h3 with h | h | h
  · refine Or.inl ⟨h, ?_⟩
    have h1 : (⌊t⌋ + 1) % 3 = 1 := by omega
    simp [call_rainbow, addAt, cmod3, ctrunc_eq_floor t ht, hfl, hfl1, h, h1,
      cfmod_eq_fract t ht]
  · refine Or.inr (Or.inl ⟨h, ?_⟩)
    have h1 : (⌊t⌋ + 1) % 3 = 2 := by omega
    simp [call_rainbow, addAt, cmod3, ctrunc_eq_floor t ht, hfl, hfl1, h, h1,
      cfmod_eq_fract t ht]
  · refine Or.inr (Or.inr ⟨h, ?_⟩)
    have h1 : (⌊t⌋ + 1) % 3 = 0 := by omega
    simp [call_rainbow, addAt, cmod3, ctrunc_eq_floor t ht, hfl, hfl1, h, h1,
      cfmod_eq_fract t ht]

/-- C1: the claim asserts that for every luminosity in `[0.1, 9.9]` and
every `t ≥ 0` the triple produced by `call_rainbow` satisfies the
`change_gamma` range asserts.  The code violates this: at `t = 0` with the
accepted luminosity `9.9`, the red channel is `9.9 + 1.0 = 10.9 > 10.0`,
so `assert(r <= 10.0f)` fires on documented-valid input. -/
theorem c1_assert_violated_at_luminosity_9_9 :
    (1/10 ≤ (99/10 : ℚ) ∧ (99/10 : ℚ) ≤ 99/10 ∧ (0 : ℚ) ≤ 0) ∧
    (call_rainbow 0 (99/10)).r = 109/10 ∧
    ¬ change_gamma_assert (call_rainbow 0 (99/10)) := by
  norm_num [call_rainbow, addAt, cmod3, ctrunc, cfmod, change_gamma_assert]

/-- C2: for `t ≥ 0` and luminosity `c ∈ [0.1, 9.9]`, each channel of
`call_rainbow t c` lies in `[c, c + 1]` and the channels sum to
`3c + 1`. -/
theorem c2_channel_range_and_sum (t c : ℚ) (ht : 0 ≤ t)
    (hc1 : 1/10 ≤ c) (hc2 : c ≤ 99/10) :
    (c ≤ (call_rainbow t c).r ∧ (call_rainbow t c).r ≤ c + 1) ∧
    (c ≤ (call_rainbow t c).g ∧ (call_rainbow t c).g ≤ c + 1) ∧
    (c ≤ (call_rainbow t c).b ∧ (call_rainbow t c).b ≤ c + 1) ∧
    (call_rainbow t c).r + (call_rainbow t c).g + (call_rainbow t c).b = 3 * c + 1 := by
  have hf0 : 0 ≤ Int.fract t := Int.fract_nonneg t
  have hf1 : Int.fract t < 1 := Int.fract_lt_one t
  rcases call_rainbow_cases t c ht with ⟨-, he⟩ | ⟨-, he⟩ | ⟨-, he⟩ <;>
    rw [he] <;> dsimp only <;>
    refine ⟨⟨?_, ?_⟩, ⟨?_, ?_⟩, ⟨?_, ?_⟩, ?_⟩ <;> linarith

/-- Witness for C2 at `t = 1/2`, `c = 1/3`. -/
theorem c2_channel_range_and_sum_witness :
    (0 : ℚ) ≤ 1/2 ∧ (1/10 : ℚ) ≤ 1/3 ∧ (1/3 : ℚ) ≤ 99/10 ∧
    ((1/3 : ℚ) ≤ (call_rainbow (1/2) (1/3)).r ∧ (call_rainbow (1/2) (1/3)).r ≤ 1/3 + 1) ∧
    ((1/3 : ℚ) ≤ (call_rainbow (1/2) (1/3)).g ∧ (call_rainbow (1/2) (1/3)).g ≤ 1/3 + 1) ∧
    ((1/3 : ℚ) ≤ (call_rainbow (1/2) (1/3)).b ∧ (call_rainbow (1/2) (1/3)).b ≤ 1/3 + 1) ∧
    (call_rainbow (1/2) (1/3)).r + (call_rainbow (1/2) (1/3)).g + (call_rainbow (1/2) (1/3)).b
      = 3 * (1/3) + 1 :=
  ⟨by norm_num, by norm_num, by norm_num,
    c2_channel_range_and_sum (1/2) (1/3) (by norm_num) (by norm_num) (by norm_num)⟩

/-- C3: boundary values of the colour function: `(c+1, c, c)` at `t = 0`,
`(c, c+1, c)` at `t = 1`, `(c, c, c+1)` at `t = 2`, and
`(c+1/2, c+1/2, c)` at `t = 1/2`, for every luminosity `c`. -/
theorem c3_boundary_values (c : ℚ) :
    call_rainbow 0 c = ⟨c + 1, c, c⟩ ∧
    call_rainbow 1 c = ⟨c, c + 1, c⟩ ∧
    call_rainbow 2 c = ⟨c, c, c + 1⟩ ∧
    call_rainbow (1/2) c = ⟨c + 1/2, c + 1/2, c⟩ := by
  refine ⟨?_, ?_, ?_, ?_⟩ <;>
    norm_num [call_rainbow, addAt, cmod3, ctrunc, cfmod, ColorTriple.mk.injEq]

/-- C4: periodicity of the colour function with period `3` in the time
argument: for `t ≥ 0`, `call_rainbow (t + 3) c = call_rainbow t c`. -/
theorem c4_periodicity (t c : ℚ) (ht : 0 ≤ t) :
    call_rainbow (t + 3) c = call_rainbow t c := by
  have hc3 : (3 : ℚ) = ((3 : ℤ) : ℚ) := by norm_num
  have h1 : ⌊t + 3⌋ = ⌊t⌋ + 3 := by rw [hc3, Int.floor_add_int]
  have h2 : Int.fract (t + 3) = Int.fract t := by rw [hc3, Int.fract_add_int]
  rcases call_rainbow_cases (t + 3) c (by linarith) with ⟨hm3, he3⟩ | ⟨hm3, he3⟩ | ⟨hm3, he3⟩ <;>
    rcases call_rainbow_cases t c ht with ⟨hm, he⟩ | ⟨hm, he⟩ | ⟨hm, he⟩ <;>
    first
      | omega
      | (rw [he3, he, h2])

/-- Witness for C4 at `t = 1/2`, `c = 1/3`. -/
theorem c4_periodicity_witness :
    (0 : ℚ) ≤ 1/2 ∧ call_rainbow (1/2 + 3) (1/3) = call_rainbow (1/2) (1/3) :=
  ⟨by norm_num, c4_periodicity (1/2) (1/3) (by norm_num)⟩

/-- C5: left-continuity of the colour function at every positive integer
time `n`: for every `ε > 0` there is `δ > 0` such that every `t` with
`n - δ < t < n` yields channels within `ε` of the channels at `t = n`
(no jump at the channel-boost handoff). -/
theorem c5_left_continuity_at_integers (n : ℤ) (L ε : ℚ) (hn : 1 ≤ n) (hε : 0 < ε) :
    ∃ δ : ℚ, 0 < δ ∧ ∀ t : ℚ, (n : ℚ) - δ < t → t < (n : ℚ) →
      |(call_rainbow t L).r - (call_rainbow (n : ℚ) L).r| < ε ∧
      |(call_rainbow t L).g - (call_rainbow (n : ℚ) L).g| < ε ∧
      |(call_rainbow t L).b - (call_rainbow (n : ℚ) L).b| < ε := by
  refine ⟨min ε 1, lt_min hε one_pos, fun t hlo hhi => ?_⟩
  have hδε : min ε 1 ≤ ε := min_le_left _ _
  have hδ1 : min ε 1 ≤ (1 : ℚ) := min_le_right _ _
  have hnq : (1 : ℚ) ≤ (n : ℚ) := by exact_mod_cast hn
  have ht1 : ((n - 1 : ℤ) : ℚ) ≤ t := by push_cast; linarith
  have ht2 : t < ((n - 1 : ℤ) : ℚ) + 1 := by push_cast; linarith
  have hfl : ⌊t⌋ = n - 1 := Int.floor_eq_iff.mpr ⟨ht1, ht2⟩
  have hfr : Int.fract t = t - ((n : ℚ) - 1) := by
    rw [Int.fract, hfl]; push_cast; ring
  have ht0 : (0 : ℚ) ≤ t := by linarith
  have hfln : ⌊(n : ℚ)⌋ = n := Int.floor_intCast n
  have hfrn : Int.fract ((n : ℚ)) = 0 := Int.fract_intCast n
  have hn0 : (0 : ℚ) ≤ (n : ℚ) := by linarith
  rcases call_rainbow_cases t L ht0 with ⟨hm, he⟩ | ⟨hm, he⟩ | ⟨hm, he⟩ <;>
    rcases call_rainbow_cases (n : ℚ) L hn0 with ⟨hmn, hen⟩ | ⟨hmn, hen⟩ | ⟨hmn, hen⟩ <;>
    rw [hfl] at hm <;> rw [hfln] at hmn <;>
    first
      | omega
      | (rw [he, hen, hfrn, hfr]; dsimp only;
         refine ⟨?_, ?_, ?_⟩ <;> rw [abs_lt] <;> constructor <;> linarith)

/-- Witness for C5 at `n = 1`, `L = 1/3`, `ε = 1`. -/
theorem c5_left_continuity_at_integers_witness :
    (1 : ℤ) ≤ 1 ∧ (0 : ℚ) < 1 ∧
    (∃ δ : ℚ, 0 < δ ∧ ∀ t : ℚ, ((1 : ℤ) : ℚ) - δ < t → t < ((1 : ℤ) : ℚ) →
      |(call_rainbow t (1/3)).r - (call_rainbow ((1 : ℤ) : ℚ) (1/3)).r| < 1 ∧
      |(call_rainbow t (1/3)).g - (call_rainbow ((1 : ℤ) : ℚ) (1/3)).g| < 1 ∧
      |(call_rainbow t (1/3)).b - (call_rainbow ((1 : ℤ) : ℚ) (1/3)).b| < 1) :=
  ⟨le_refl 1, by norm_num,
    c5_left_continuity_at_integers 1 (1/3) 1 (le_refl 1) (by norm_num)⟩

/-- Outcome of the argv-scanning loop in `main` (src/xrainbow.c:132-169).
`exitSuccess` models `print_usage_and_exit(argv[0], EXIT_SUCCESS)` and
`print_version_and_exit()`; `exitFailure` models
`print_usage_and_exit(argv[0], EXIT_FAILURE)`; `run` models falling out of
the loop with the final configuration, after which `main` proceeds to
`XOpenDisplay` (src/xrainbow.c:171). -/
inductive ParseOutcome where
  | exitSuccess
  | exitFailure
  | run (time_limit speed luminosity : ℚ)
deriving DecidableEq, Repr

/-- The argv-scanning loop of `main` (src/xrainbow.c:132-169), scanning the
remaining argument list with the current `time_limit`, `speed` and
`luminosity` values.  `atof` is an oracle parameter standing for the libc
string-to-double conversion, which is outside this repository.  A flag that
expects a value but has none following falls through every branch to the
final `else`, which prints usage and exits with failure. -/
def parse_args (atof : String → ℚ) : List String → ℚ → ℚ → ℚ → ParseOutcome
  | [], tl, sp, lu => ParseOutcome.run tl sp lu
  | a :: rest, tl, sp, lu =>
    if a = "-h" ∨ a = "--help" then ParseOutcome.exitSuccess
    else if a = "-v" ∨ a = "--version" then ParseOutcome.exitSuccess
    else
      match rest with
      | [] => ParseOutcome.exitFailure
      | v :: rest2 =>
        if a = "-t" ∨ a = "--time-limit" then
          parse_args atof rest2 (atof v) sp lu
        else if a = "-l" ∨ a = "--luminosity" then
          if atof v < 1/10 ∨ atof v > 99/10 then ParseOutcome.exitFailure
          else parse_args atof rest2 tl sp (atof v)
        else if a = "-s" ∨ a = "--speed" then
          if atof v ≤ 0 then ParseOutcome.exitFailure
          else parse_args atof rest2 tl (atof v) lu
        else ParseOutcome.exitFailure

/-- Default `time_limit` (src/xrainbow.c:129). -/
def default_time_limit : ℚ := -1

/-- Default `speed` (src/xrainbow.c:130). -/
def default_speed : ℚ := 1

/-- Default `luminosity`, `1.0f / 3.0f` (src/xrainbow.c:131). -/
def default_luminosity : ℚ := 1/3

/-- Outcome of the startup phase of `main` (src/xrainbow.c:129-176):
either the process exits during argument handling, or it reaches the
`XOpenDisplay` call with the parsed configuration. -/
inductive MainOutcome where
  | exitedSuccess
  | exitedFailure
  | openedDisplay (time_limit speed luminosity : ℚ)
deriving DecidableEq, Repr

/-- Startup of `main`: initialize the defaults, scan the arguments, and —
only if the scan falls out of the loop — proceed to open the display. -/
def main_startup (atof : String → ℚ) (args : List String) : MainOutcome :=
  match parse_args atof args default_time_limit default_speed default_luminosity with
  | ParseOutcome.exitSuccess => MainOutcome.exitedSuccess
  | ParseOutcome.exitFailure => MainOutcome.exitedFailure
  | ParseOutcome.run tl sp lu => MainOutcome.openedDisplay tl sp lu

/-- C6: a speed value `≤ 0` or a luminosity value outside `[0.1, 9.9]` is
rejected at the point the flag is scanned (any parser state `tl`, `sp`,
`lu`), with a usage-and-failure exit; when such a flag leads the argument
list the startup therefore never reaches `XOpenDisplay`. -/
theorem c6_validation_rejects (atof : String → ℚ) (v : String)
    (rest : List String) (tl sp lu : ℚ) :
    (atof v ≤ 0 →
      parse_args atof ("-s" :: v :: rest) tl sp lu = ParseOutcome.exitFailure ∧
      parse_args atof ("--speed" :: v :: rest) tl sp lu = ParseOutcome.exitFailure ∧
      main_startup atof ("-s" :: v :: rest) = MainOutcome.exitedFailure) ∧
    ((atof v < 1/10 ∨ atof v > 99/10) →
      parse_args atof ("-l" :: v :: rest) tl sp lu = ParseOutcome.exitFailure ∧
      parse_args atof ("--luminosity" :: v :: rest) tl sp lu = ParseOutcome.exitFailure ∧
      main_startup atof ("-l" :: v :: rest) = MainOutcome.exitedFailure) := by
  have hmain : ∀ args, parse_args atof args default_time_limit default_speed
      default_luminosity = ParseOutcome.exitFailure →
      main_startup atof args = MainOutcome.exitedFailure := by
    intro args hp
    simp [main_startup, hp]
  constructor
  · intro h
    have hp1 : ∀ tl' sp' lu', parse_args atof ("-s" :: v :: rest) tl' sp' lu' =
        ParseOutcome.exitFailure := by
      intro tl' sp' lu'
      simp [parse_args, h]
    have hp2 : ∀ tl' sp' lu', parse_args atof ("--speed" :: v :: rest) tl' sp' lu' =
        ParseOutcome.exitFailure := by
      intro tl' sp' lu'
      simp [parse_args, h]
    exact ⟨hp1 tl sp lu, hp2 tl sp lu, hmain _ (hp1 _ _ _)⟩
  · intro h
    have hp1 : ∀ tl' sp' lu', parse_args atof ("-l" :: v :: rest) tl' sp' lu' =
        ParseOutcome.exitFailure := by
      intro tl' sp' lu'
      simp only [parse_args]
      simp
      intro h1 h2
      exfalso
      rcases h with h | h <;> linarith
    have hp2 : ∀ tl' sp' lu', parse_args atof ("--luminosity" :: v :: rest) tl' sp' lu' =
        ParseOutcome.exitFailure := by
      intro tl' sp' lu'
      simp only [parse_args]
      simp
      intro h1 h2
      exfalso
      rcases h with h | h <;> linarith
    exact ⟨hp1 tl sp lu, hp2 tl sp lu, hmain _ (hp1 _ _ _)⟩

/-- Witness for C6: with `atof` constantly `0`, speed `0` and luminosity
`0` are both rejected before the display would be opened. -/
theorem c6_validation_rejects_witness :
    parse_args (fun _ => 0) ["-s", "x"] (-1) 1 (1/3) = ParseOutcome.exitFailure ∧
    main_startup (fun _ => 0) ["-s", "x"] = MainOutcome.exitedFailure ∧
    parse_args (fun _ => 0) ["-l", "x"] (-1) 1 (1/3) = ParseOutcome.exitFailure ∧
    main_startup (fun _ => 0) ["-l", "x"] = MainOutcome.exitedFailure := by
  have hs := (c6_validation_rejects (fun _ => 0) "x" [] (-1) 1 (1/3)).1
    (by norm_num)
  have hl := (c6_validation_rejects (fun _ => 0) "x" [] (-1) 1 (1/3)).2
    (by norm_num)
  exact ⟨hs.1, hs.2.2, hl.1, hl.2.2⟩

/-- C10: with no flags given, startup keeps the defaults
`time_limit = -1`, `speed = 1`, `luminosity = 1/3` and reaches
`XOpenDisplay` with them, and the defaults satisfy the validation
constraints (`speed > 0`, `luminosity ∈ [0.1, 9.9]`) that the parsing
loop itself never checks them against. -/
theorem c10_defaults_valid (atof : String → ℚ) :
    main_startup atof [] =
      MainOutcome.openedDisplay default_time_limit default_speed default_luminosity ∧
    default_time_limit = -1 ∧ default_speed = 1 ∧ default_luminosity = 1/3 ∧
    0 < default_speed ∧
    1/10 ≤ default_luminosity ∧ default_luminosity ≤ 99/10 := by
  refine ⟨rfl, rfl, rfl, rfl, ?_, ?_, ?_⟩ <;>
    norm_num [default_speed, default_luminosity]

/-- The values an iteration of the `RUNNING` loop (src/xrainbow.c:183-189)
observes from its environment: the elapsed time `get_time() - start_time`
sampled at the `while` guard, the elapsed time sampled again inside the
loop body for `call_rainbow`, and the value of the `pending_quit` flag at
the check after `sched_yield()` (true once a handled signal has arrived,
since `handle_signal` only ever sets the flag, src/xrainbow.c:77-81). -/
structure LoopInput where
  elapsed_check : ℚ
  elapsed_body : ℚ
  quit_after_yield : Bool
deriving DecidableEq, Repr

/-- The `while` guard `time_limit < 0.0 || time_limit >= get_time() -
start_time` (src/xrainbow.c:183): `true` means the loop keeps running. -/
def loop_condition (time_limit elapsed : ℚ) : Bool :=
  decide (time_limit < 0) || decide (time_limit ≥ elapsed)

/-- The `RUNNING` loop of `main` (src/xrainbow.c:183-189), fed the finite
schedule `ins` of per-iteration observations; it returns the gamma triples
handed to `change_gamma`, in order.  Each iteration checks the guard,
computes and applies `call_rainbow((get_time() - start_time) * speed,
luminosity)`, yields, and breaks if `pending_quit` is set. -/
def run_loop (time_limit speed luminosity : ℚ) : List LoopInput → List ColorTriple
  | [] => []
  | i :: rest =>
    if loop_condition time_limit i.elapsed_check then
      let g := call_rainbow (i.elapsed_body * speed) luminosity
      if i.quit_after_yield then [g]
      else g :: run_loop time_limit speed luminosity rest
    else []

/-- Events observed by the display sink. -/
inductive SinkEvent where
  | setGamma (tr : ColorTriple)
  | closeDisplay
deriving DecidableEq, Repr

/-- Teardown `quit_application` (src/xrainbow.c:67-75), registered with
`atexit` (src/xrainbow.c:178): set the neutral gamma `(1.0, 1.0, 1.0)`,
then close the display connection. -/
def quit_application : List SinkEvent :=
  [SinkEvent.setGamma ⟨1, 1, 1⟩, SinkEvent.closeDisplay]

/-- Sink-event trace of a terminating execution of `main` after the
display has been opened: the loop's gamma applications followed by the
`atexit` teardown, which runs once when `main` returns — whether the loop
ended on the time limit, on `pending_quit` set by a signal handler, or at
the end of the schedule. -/
def program_events (time_limit speed luminosity : ℚ) (ins : List LoopInput) :
    List SinkEvent :=
  (run_loop time_limit speed luminosity ins).map SinkEvent.setGamma ++ quit_application

theorem call_rainbow_ne_neutral (t c : ℚ) (ht : 0 ≤ t) :
    call_rainbow t c ≠ ⟨1, 1, 1⟩ := by
  have hf0 : 0 ≤ Int.fract t := Int.fract_nonneg t
  have hf1 : Int.fract t < 1 := Int.fract_lt_one t
  rcases call_rainbow_cases t c ht with ⟨-, he⟩ | ⟨-, he⟩ | ⟨-, he⟩ <;>
    rw [he] <;> intro hc <;>
    (simp only [ColorTriple.mk.injEq] at hc; obtain ⟨h1, h2, h3⟩ := hc; linarith)

theorem run_loop_mem (tl sp lu : ℚ) (ins : List LoopInput) (g : ColorTriple)
    (hg : g ∈ run_loop tl sp lu ins) :
    ∃ i ∈ ins, g = call_rainbow (i.elapsed_body * sp) lu := by
  induction ins with
  | nil => simp [run_loop] at hg
  | cons i rest ih =>
    simp only [run_loop] at hg
    by_cases hcond : loop_condition tl i.elapsed_check
    · rw [if_pos hcond] at hg
      by_cases hquit : i.quit_after_yield
      · rw [if_pos hquit] at hg
        simp only [List.mem_singleton] at hg
        exact ⟨i, List.mem_cons_self i rest, hg⟩
      · rw [if_neg hquit] at hg
        rcases List.mem_cons.mp hg with h | h
        · exact ⟨i, List.mem_cons_self i rest, h⟩
        · obtain ⟨j, hj, hje⟩ := ih h
          exact ⟨j, List.mem_cons_of_mem i hj, hje⟩
    · rw [if_neg hcond] at hg
      simp at hg

/-- C7: the loop stops on the time-limit condition exactly when the time
limit is non-negative and the observed elapsed time strictly exceeds it; a
negative time limit keeps the guard true forever; and an iteration whose
guard observation fails the condition applies no further gamma call. -/
theorem c7_time_limit_boundary (tl e sp lu : ℚ) (i : LoopInput)
    (rest : List LoopInput) :
    (loop_condition tl e = false ↔ 0 ≤ tl ∧ tl < e) ∧
    (tl < 0 → loop_condition tl e = true) ∧
    (loop_condition tl i.elapsed_check = false → run_loop tl sp lu (i :: rest) = []) := by
  refine ⟨?_, ?_, ?_⟩
  · simp only [loop_condition, Bool.or_eq_false_iff, decide_eq_false_iff_not,
      not_lt, ge_iff_le, not_le]
  · intro h
    simp [loop_condition, h]
  · intro h
    simp [run_loop, h]

/-- Witness for C7: with time limit `2`, elapsed `5/2` stops the loop and
yields no gamma call; with time limit `-1` the guard stays true. -/
theorem c7_time_limit_boundary_witness :
    loop_condition 2 (5/2) = false ∧
    loop_condition (-1) 100 = true ∧
    run_loop 2 1 (1/3) [LoopInput.mk (5/2) (5/2) false] = [] := by
  have h := c7_time_limit_boundary 2 (5/2) 1 (1/3) (LoopInput.mk (5/2) (5/2) false) []
  have h2 := c7_time_limit_boundary (-1) 100 1 (1/3) (LoopInput.mk (5/2) (5/2) false) []
  exact ⟨h.1.mpr (by norm_num), h2.2.1 (by norm_num), h.2.2 (h.1.mpr (by norm_num))⟩

/-- C8: for every terminating execution (any time limit, any schedule of
clock observations and signal arrivals, positive speed, monotone clock),
the sink trace is the loop's gamma calls followed by exactly one teardown:
the neutral reset immediately precedes the single display close, and
neither a close nor a neutral reset occurs earlier in the trace. -/
theorem c8_teardown_exactly_once (tl sp lu : ℚ) (ins : List LoopInput)
    (hsp : 0 < sp) (hins : ∀ i ∈ ins, 0 ≤ i.elapsed_body) :
    ∃ pre, program_events tl sp lu ins = pre ++ quit_application ∧
      SinkEvent.closeDisplay ∉ pre ∧
      SinkEvent.setGamma ⟨1, 1, 1⟩ ∉ pre ∧
      (program_events tl sp lu ins).count SinkEvent.closeDisplay = 1 := by
  refine ⟨(run_loop tl sp lu ins).map SinkEvent.setGamma, rfl, ?_, ?_, ?_⟩
  · intro hmem
    rw [List.mem_map] at hmem
    obtain ⟨g, -, hge⟩ := hmem
    exact SinkEvent.noConfusion hge
  · intro hmem
    rw [List.mem_map] at hmem
    obtain ⟨g, hg, hge⟩ := hmem
    have hgeq : g = ⟨1, 1, 1⟩ := by simpa using hge
    obtain ⟨i, hi, hie⟩ := run_loop_mem tl sp lu ins g hg
    rw [hgeq] at hie
    exact call_rainbow_ne_neutral (i.elapsed_body * sp) lu
      (mul_nonneg (hins i hi) (le_of_lt hsp)) hie.symm
  · rw [program_events, List.count_append]
    have h1 : ((run_loop tl sp lu ins).map SinkEvent.setGamma).count
        SinkEvent.closeDisplay = 0 := by
      rw [List.count_eq_zero]
      intro hmem
      rw [List.mem_map] at hmem
      obtain ⟨g, -, hge⟩ := hmem
      exact SinkEvent.noConfusion hge
    rw [h1]
    rfl

/-- Witness for C8 with an unbounded time limit, unit speed and a
one-iteration schedule with no signal. -/
theorem c8_teardown_exactly_once_witness :
    (0 : ℚ) < 1 ∧
    (∀ i ∈ [LoopInput.mk 0 0 false], (0 : ℚ) ≤ i.elapsed_body) ∧
    (∃ pre, program_events (-1) 1 (1/3) [LoopInput.mk 0 0 false] =
        pre ++ quit_application ∧
      SinkEvent.closeDisplay ∉ pre ∧
      SinkEvent.setGamma ⟨1, 1, 1⟩ ∉ pre ∧
      (program_events (-1) 1 (1/3) [LoopInput.mk 0 0 false]).count
        SinkEvent.closeDisplay = 1) :=
  ⟨by norm_num, by simp,
    c8_teardown_exactly_once (-1) 1 (1/3) [LoopInput.mk 0 0 false]
      (by norm_num) (by simp)⟩

/-- C9: if the `pending_quit` flag is observed set at the post-yield check
of iteration `k` (zero-based), the loop terminates there: the whole run
performs at most `k + 1` gamma-set calls, so at most one gamma-set call
(that same iteration's) happens after the flag is up. -/
theorem c9_stop_flag_latency (tl sp lu : ℚ) (ins : List LoopInput) (k : ℕ)
    (hk : k < ins.length) (hquit : (ins.get ⟨k, hk⟩).quit_after_yield = true) :
    (run_loop tl sp lu ins).length ≤ k + 1 := by
  induction ins generalizing k with
  | nil => simp at hk
  | cons i rest ih =>
    simp only [run_loop]
    by_cases hcond : loop_condition tl i.elapsed_check
    · rw [if_pos hcond]
      by_cases hq : i.quit_after_yield
      · rw [if_pos hq]
        simp only [List.length_singleton]
        omega
      · rw [if_neg hq]
        cases k with
        | zero =>
          exfalso
          apply hq
          simpa using hquit
        | succ k2 =>
          have hk2 : k2 < rest.length := by simpa using hk
          have hq2 : (rest.get ⟨k2, hk2⟩).quit_after_yield = true := by
            simpa using hquit
          have hlen := ih k2 hk2 hq2
          simp only [List.length_cons]
          omega
    · rw [if_neg hcond]
      simp

/-- Witness for C9: a flag observed at iteration `0` bounds the run to one
gamma call. -/
theorem c9_stop_flag_latency_witness :
    0 < ([LoopInput.mk 0 0 true] : List LoopInput).length ∧
    (([LoopInput.mk 0 0 true] : List LoopInput).get
      ⟨0, by decide⟩).quit_after_yield = true ∧
    (run_loop (-1) 1 (1/3) [LoopInput.mk 0 0 true]).length ≤ 0 + 1 :=
  ⟨by decide, rfl,
    c9_stop_flag_latency (-1) 1 (1/3) [LoopInput.mk 0 0 true] 0 (by decide) rfl⟩
